import Mathlib

/-!
Verification development for the hpx-nodejs-addon coordination layer.

The definitions below are shallow embeddings of the C++ sources under
src/addon/src: the pure data-flow of each function is translated into an
executable Lean function, stateful components (HPXManager, TSFNManager)
become explicit state-passing functions on a state structure, and the
calls into the external HPX parallel-algorithm library are modelled by
their documented sequential semantics.  File and line references point
into the C++ sources.
-/

/- ===================== Definitions ===================== -/

/-- Embedding of struct HPXUserConfig (hpx_config.hpp).  Field defaults
are the C++ member initializers. -/
structure HPXUserConfig where
  executionPolicy : String := "par"
  threshold : Nat := 10000
  threadCount : Nat := 2
  loggingEnabled : Bool := true
  logLevel : String := "INFO"
  addonName : String := "hpxaddon"
deriving Repr, DecidableEq

/-- The three HPX execution policies that run_with_policy can select
(hpx::execution::seq, par, par_unseq). -/
inductive ExecPolicy where
  | seq
  | par
  | par_unseq
deriving Repr, DecidableEq

/-- Embedding of run_with_policy (hpx_run_policy.hpp lines 10-25): the
policy-selection logic.  The C++ template applies the operation f under
the selected policy; the selection itself is the data this file reasons
about, so the embedding returns the chosen policy. -/
def run_with_policy (cfg : HPXUserConfig) (size : Nat) : ExecPolicy :=
  let useParallel := size ≥ cfg.threshold
  if ¬ useParallel then ExecPolicy.seq
  else if cfg.executionPolicy = "seq" then ExecPolicy.seq
  else if cfg.executionPolicy = "par_unseq" then ExecPolicy.par_unseq
  else ExecPolicy.par

/-- Embedding of hpx_sort (hpx_wrapper.cpp lines 12-20): copies the input
and sorts it ascending via hpx::sort with operator ≤ on int32_t.  hpx::sort
is an external-library comparison sort; on a linear order its result is
the unique sorted permutation of the input, here realised by
List.insertionSort. -/
def hpx_sort (src : List Int) : List Int :=
  List.insertionSort (· ≤ ·) src

/-- Embedding of hpx_copy (hpx_wrapper.cpp lines 31-40): hpx::copy of the
whole input into a fresh same-length buffer, i.e. the identity on the
element sequence. -/
def hpx_copy (input : List Int) : List Int := input

/-- Embedding of hpx_count (hpx_wrapper.cpp lines 22-29): hpx::count of
the elements equal to value. -/
def hpx_count (input : List Int) (value : Int) : Nat :=
  input.count value

/-- Embedding of hpx_equal (hpx_wrapper.cpp lines 52-61): the four-iterator
overload of hpx::equal returns true exactly when both ranges have the same
length and are elementwise equal.  The effective_size computed in the C++
(min of the two lengths) only feeds the policy threshold and does not
affect the boolean result. -/
def hpx_equal (v1 v2 : List Int) : Bool :=
  if v1.length = v2.length then (List.zip v1 v2).all fun p => p.1 == p.2
  else false

/-- Embedding of hpx_copy_n (hpx_wrapper.cpp lines 102-111): builds a
vector from the first count elements of the source buffer and copies them
out.  src models the source buffer; the C++ reads exactly count elements
from it, which the addon-level caller guarantees is in bounds. -/
def hpx_copy_n (src : List Int) (count : Nat) : List Int :=
  src.take count

/-- Embedding of the addon-level CopyN (addon.cpp lines 358-388): clamps
the requested count to the input length (line 365: if count > dataSize
then count = dataSize) and then delegates to hpx_copy_n. -/
def CopyN (input : List Int) (count : Nat) : List Int :=
  let c := if count > input.length then input.length else count
  hpx_copy_n input c

/-- Error raised by the wrapper layer (hpx_wrapper.cpp line 90): the
runtime_error whose message reads: middle index out of bounds. -/
inductive WrapperError where
  | middleOutOfBounds
deriving Repr, DecidableEq

/-- Embedding of hpx_partial_sort (hpx_wrapper.cpp lines 88-100): if
middle > size the call fails with the out-of-bounds runtime_error;
otherwise hpx::partial_sort leaves the smallest middle elements sorted at
the front with the tail in unspecified order.  The unspecified tail is
modelled canonically by the fully sorted sequence (a legitimate refinement
of the partial-sort contract); claim C9 only depends on the error/success
behaviour. -/
def hpxPartialSort (src : List Int) (middle : Nat) :
    Except WrapperError (List Int) :=
  if middle > src.length then Except.error WrapperError.middleOutOfBounds
  else Except.ok ((hpx_sort src).take middle ++ (hpx_sort src).drop middle)

/-- Embedding of hpx_partial_sort_comp (hpx_wrapper.cpp lines 154-163):
clamps middle to size (line 155: if middle > size then middle = size) and
never fails; the comparator-based hpx::partial_sort payload is modelled
canonically like hpxPartialSort, sorting by the comparator comp. -/
def hpxPartialSortComp (src : List Int) (middle : Nat)
    (comp : Int → Int → Bool) : Except WrapperError (List Int) :=
  let m := if middle > src.length then src.length else middle
  let sorted := List.insertionSort (fun a b => comp a b = true) src
  Except.ok (sorted.take m ++ sorted.drop m)

/-- The element kinds of N-API typed arrays that the batch-callback
validation in data_conversion.cpp distinguishes. -/
inductive NapiKind where
  | int32
  | uint8
  | otherKind
deriving Repr, DecidableEq

/-- A typed-array value produced by the host-side JavaScript function. -/
structure NapiTypedArray where
  kind : NapiKind
  data : List Int
deriving Repr, DecidableEq

/-- The value returned by the host-side JavaScript function to a batch
callback: either not a typed array at all, or a typed array. -/
inductive JSReturn where
  | nonTypedArray
  | typedArr (t : NapiTypedArray)
deriving Repr, DecidableEq

/-- The failure modes of a batch callback round trip in
data_conversion.cpp: the host function returned something that is not a
typed array, or a typed array of the wrong element kind or wrong length
(the ShapeMismatch errors of the specification taxonomy). -/
inductive BatchError where
  | notTypedArray
  | shapeMismatch
deriving Repr, DecidableEq

/-- Embedding of GetPredicateMaskBatchUsingTSFN (data_conversion.cpp lines
76-134): given the value ret the host predicate returned for a request of
n elements, validate it exactly as the C++ does (lines 109-118): not a
typed array fails; wrong element kind (not uint8) or wrong length fails;
otherwise the n mask bytes are copied out unchanged. -/
def GetPredicateMaskBatchUsingTSFN (ret : JSReturn) (n : Nat) :
    Except BatchError (List Int) :=
  match ret with
  | JSReturn.nonTypedArray => Except.error BatchError.notTypedArray
  | JSReturn.typedArr t =>
    if t.kind ≠ NapiKind.uint8 ∨ t.data.length ≠ n then
      Except.error BatchError.shapeMismatch
    else Except.ok t.data

/-- Embedding of GetKeyArrayBatchUsingTSFN (data_conversion.cpp lines
157-213): identical validation with element kind int32 (lines 188-197). -/
def GetKeyArrayBatchUsingTSFN (ret : JSReturn) (n : Nat) :
    Except BatchError (List Int) :=
  match ret with
  | JSReturn.nonTypedArray => Except.error BatchError.notTypedArray
  | JSReturn.typedArr t =>
    if t.kind ≠ NapiKind.int32 ∨ t.data.length ≠ n then
      Except.error BatchError.shapeMismatch
    else Except.ok t.data

/-- Embedding of MaskPredicate::operator() (addon.cpp lines 462-468 and
529-536): each predicate call atomically takes the next cursor position
and reads the mask there (idx = cursor.fetch_add(1); return mask[idx] == 1).
Under the sequential policy the parallel-library traversal calls the
predicate once per element in element order, so the cursor is threaded
through a left fold. -/
def maskPredicate (mask : List Int) (cursor : Nat) : Bool × Nat :=
  (mask.getD cursor 0 == 1, cursor + 1)

/-- One step of hpx::count_if over the mask predicate: count the element
when the predicate call answers true, advancing the shared cursor. -/
def countIfStep (mask : List Int) (acc : Nat × Nat) (_x : Int) : Nat × Nat :=
  let r := maskPredicate mask acc.2
  (if r.1 then acc.1 + 1 else acc.1, r.2)

/-- Embedding of the addon-level CountIf dataflow (addon.cpp lines 433-488
with hpx_count_if, hpx_wrapper.cpp lines 123-130): after the batch call
produced mask, hpx::count_if invokes the mask predicate once per input
element and returns how many calls answered true. -/
def hpx_count_if (input : List Int) (mask : List Int) : Nat :=
  (input.foldl (countIfStep mask) (0, 0)).1

/-- One step of hpx::copy_if over the mask predicate: keep the element
when the predicate call answers true, advancing the shared cursor. -/
def copyIfStep (mask : List Int) (acc : List Int × Nat) (x : Int) :
    List Int × Nat :=
  let r := maskPredicate mask acc.2
  (if r.1 then acc.1 ++ [x] else acc.1, r.2)

/-- Embedding of the addon-level CopyIf dataflow (addon.cpp lines 498-559
with hpx_copy_if, hpx_wrapper.cpp lines 132-142): after the batch call
produced mask, hpx::copy_if keeps, in order, the elements whose predicate
call answered true. -/
def hpx_copy_if (input : List Int) (mask : List Int) : List Int :=
  (input.foldl (copyIfStep mask) ([], 0)).1

/-- Model of a std::promise over int together with its shared state: the
stored value (none while pending) and whether get_future has already been
called on it (a std::promise hands out its future exactly once; a second
get_future throws std::future_error). -/
structure PromiseInt where
  value : Option Int
  futureRetrieved : Bool
deriving Repr, DecidableEq

/-- State of the HPXManager singleton (hpx_manager.hpp / hpx_manager.cpp):
running_ flag, init_promise_, finalize_promise_ (none models nullptr),
whether finalize_signal_promise_ has fired, and whether hpx_thread_ is
joinable.  joinCount, brokenInitFutures and terminated are ghost fields
recording how often the engine thread was joined, how many outstanding
init futures were broken by overwriting their pending promise, and
whether std::terminate was reached. -/
structure ManagerState where
  running : Bool
  initPromise : Option PromiseInt
  finalizePromise : Option PromiseInt
  finalizeSignalSet : Bool
  threadJoinable : Bool
  joinCount : Nat
  brokenInitFutures : Nat
  terminated : Bool
deriving Repr, DecidableEq

/-- Outcome of HPXManager::InitHPX as observed by its caller. -/
inductive InitResult where
  | alreadyRunning
  | started
  | terminatedCall
deriving Repr, DecidableEq

/-- Outcome of HPXManager::FinalizeHPX as observed by its caller. -/
inductive FinalizeResult where
  | notRunning
  | inFlightFuture
  | futureError
  | promiseAlreadySatisfied
  | ok (v : Int)
deriving Repr, DecidableEq

/-- Embedding of HPXManager::InitHPX (hpx_manager.cpp lines 58-79).  The
whole body runs under mutex_, so calls are serialized and each call is one
atomic step on the state.  If running_ is set the call returns a fresh
future holding -1 (AlreadyRunning) and touches nothing else.  Otherwise
init_promise_ is replaced by a fresh promise (line 70) - destroying a
previous still-pending promise breaks its outstanding future - and then
hpx_thread_ is assigned a new thread (line 74); assigning to a std::thread
that is still joinable calls std::terminate.  On the normal path the new
promise's future is retrieved and returned (line 78). -/
def InitHPX (s : ManagerState) : InitResult × ManagerState :=
  if s.running then (InitResult.alreadyRunning, s)
  else
    let broken :=
      match s.initPromise with
      | some p =>
        if p.value = none then s.brokenInitFutures + 1 else s.brokenInitFutures
      | none => s.brokenInitFutures
    if s.threadJoinable then
      (InitResult.terminatedCall,
        { s with initPromise := some ⟨none, false⟩,
                 brokenInitFutures := broken, terminated := true })
    else
      (InitResult.started,
        { s with initPromise := some ⟨none, true⟩,
                 brokenInitFutures := broken, threadJoinable := true })

/-- Models the engine thread reaching hpx_main_handler (hpx_manager.cpp
lines 253-257): SetRunning(true) followed by ResolveInitPromise(0). -/
def engineReady (s : ManagerState) : ManagerState :=
  { s with running := true,
           initPromise :=
             match s.initPromise with
             | some p => some { p with value := some 0 }
             | none => none }

/-- Embedding of HPXManager::FinalizeHPX (hpx_manager.cpp lines 83-134).
The whole body runs under mutex_ - including the blocking wait at line 110
- so calls are serialized and each is one atomic step.  Branches, in
source order: (1) not running_: fresh future holding -1 (line 86-91);
(2) finalize_promise_ already exists (line 93-96): the code returns
finalize_promise_->get_future(), which throws std::future_error whenever
that future was already retrieved (the first call always retrieves it at
line 109); (3) otherwise a fresh finalize_promise_ is created and
finalize_signal_promise_.set_value() fires the signal (line 104) - firing
an already-satisfied promise throws, caught at line 112-118 which stores
-1 and rethrows; (4) normal path: the wait at line 110 returns only after
the engine thread ran WaitForFinalizeHPX (hpx::finalize, promise set to 0)
and the join at line 122 returns only after hpx_main_handler performed
SetRunning(false), so those engine-thread effects are folded into the
atomic step at their synchronization points, and the call returns a fresh
future holding 0 (lines 131-133). -/
def FinalizeHPX (s : ManagerState) : FinalizeResult × ManagerState :=
  if ¬ s.running then (FinalizeResult.notRunning, s)
  else
    match s.finalizePromise with
    | some p =>
      if p.futureRetrieved then (FinalizeResult.futureError, s)
      else (FinalizeResult.inFlightFuture,
        { s with finalizePromise := some { p with futureRetrieved := true } })
    | none =>
      if s.finalizeSignalSet then
        (FinalizeResult.promiseAlreadySatisfied,
          { s with finalizePromise := some ⟨some (-1), false⟩ })
      else
        (FinalizeResult.ok 0,
          { s with running := false,
                   finalizePromise := some ⟨some 0, true⟩,
                   finalizeSignalSet := true,
                   threadJoinable := false,
                   joinCount :=
                     if s.threadJoinable then s.joinCount + 1
                     else s.joinCount })

/-- The manager state right after construction (hpx_manager.cpp line 32). -/
def freshManager : ManagerState :=
  { running := false, initPromise := none, finalizePromise := none,
    finalizeSignalSet := false, threadJoinable := false, joinCount := 0,
    brokenInitFutures := 0, terminated := false }

/-- The Starting state: InitHPX has returned (thread spawned, init promise
pending) but the engine has not yet signalled readiness, so running_ is
still false. -/
def startingManager : ManagerState := (InitHPX freshManager).2

/-- The Running state: the engine thread reached hpx_main_handler and set
running_ and the init result. -/
def runningManager : ManagerState := engineReady startingManager

/-- The manager state as it stands at hpx_manager.cpp line 93 during a
first FinalizeHPX call: finalize_promise_ was created (line 100) and its
future retrieved (line 109) but no value set yet.  This is the state the
finalization-already-in-progress branch guards against. -/
def inFlightFinalizeManager : ManagerState :=
  { runningManager with finalizePromise := some ⟨none, true⟩ }

/-- The atomic actions performed on the finalize path of the addon and by
the TSFNManager release thread (addon.cpp lines 88-108, tsfn_manager.cpp
lines 21-68). -/
inductive HostAction where
  | callManagerFinalize
  | callResetManager
  | callReleaseAll
  | waitReleaseCompletion
  | resolvePromise
  | releaseHandle (h : Nat)
  | signalReleaseComplete
deriving Repr, DecidableEq

/-- Embedding of the execute lambda of the addon-level FinalizeHPX
(addon.cpp lines 92-101), in source order: manager.FinalizeHPX().get()
(the engine is stopped and its thread joined inside this call),
resetHPXManager(), TSFNManager::GetInstance().ReleaseAllTSFNs().
ReleaseAllTSFNs only spawns the release thread and returns;
WaitForReleaseCompletion (tsfn_manager.cpp line 65) is nowhere called. -/
def finalizeExecuteTrace : List HostAction :=
  [HostAction.callManagerFinalize, HostAction.callResetManager,
   HostAction.callReleaseAll]

/-- The host-side finalize trace: after the execute lambda returns, the
complete lambda (addon.cpp lines 103-106) settles the deferred promise. -/
def finalizeHostTrace : List HostAction :=
  finalizeExecuteTrace ++ [HostAction.resolvePromise]

/-- Embedding of the dedicated release thread spawned by
TSFNManager::ReleaseAllTSFNs (tsfn_manager.cpp lines 33-57): it snapshots
and clears the live list under the mutex, releases every snapshotted
handle once, then sets release_completed_ and notifies the condition
variable.  handles is the snapshot of registered handle identities. -/
def releaseThreadTrace (handles : List Nat) : List HostAction :=
  handles.map HostAction.releaseHandle ++ [HostAction.signalReleaseComplete]

/- ===================== Theorems ===================== -/

/-- Helper for C10: for equal-length lists the zipped elementwise
comparison succeeds exactly on equal lists. -/
theorem zipAllEqIff : ∀ (v1 v2 : List Int), v1.length = v2.length →
    (((List.zip v1 v2).all fun p => p.1 == p.2) = true ↔ v1 = v2)
  | [], [], _ => by simp
  | [], _ :: _, h => by simp at h
  | _ :: _, [], h => by simp at h
  | a :: t1, b :: t2, h => by
    have h' : t1.length = t2.length := by simpa using h
    have ih := zipAllEqIff t1 t2 h'
    simp [List.zip_cons_cons, ih]

/-- C7: sort on [5,3,1,4,2] yields [1,2,3,4,5]; sort of the empty sequence
is the empty sequence; and for every sequence x, sort (sort x) = sort x,
i.e. sorting is idempotent. -/
theorem C7_sort_roundtrip_idempotent :
    hpx_sort [5, 3, 1, 4, 2] = [1, 2, 3, 4, 5] ∧
    hpx_sort ([] : List Int) = [] ∧
    ∀ x : List Int, hpx_sort (hpx_sort x) = hpx_sort x := by
  refine ⟨by decide, rfl, fun x => ?_⟩
  exact List.Sorted.insertionSort_eq (List.sorted_insertionSort _ x)

/-- C5: run_with_policy selects Sequential whenever the input size is
below the configured threshold, regardless of the configured execution
policy; at or above the threshold it selects the configured policy, with
Parallel as the default for any other configured policy string. -/
theorem C5_policy_threshold (cfg : HPXUserConfig) (size : Nat) :
    (size < cfg.threshold → run_with_policy cfg size = ExecPolicy.seq) ∧
    (size ≥ cfg.threshold → cfg.executionPolicy = "seq" →
      run_with_policy cfg size = ExecPolicy.seq) ∧
    (size ≥ cfg.threshold → cfg.executionPolicy = "par_unseq" →
      run_with_policy cfg size = ExecPolicy.par_unseq) ∧
    (size ≥ cfg.threshold → cfg.executionPolicy ≠ "seq" →
      cfg.executionPolicy ≠ "par_unseq" →
      run_with_policy cfg size = ExecPolicy.par) := by
  unfold run_with_policy
  refine ⟨fun h => ?_, fun h hs => ?_, fun h hp => ?_, fun h hs hp => ?_⟩
  · have hn : ¬ size ≥ cfg.threshold := by omega
    simp [hn]
  · simp [h, hs]
  · have hne : cfg.executionPolicy ≠ "seq" := by
      rw [hp]; decide
    simp [h, hp, hne]
  · simp [h, hs, hp]

/-- Witness for C5 at concrete configurations and sizes. -/
theorem C5_policy_threshold_witness :
    run_with_policy { threshold := 4, executionPolicy := "par_unseq" } 3 =
      ExecPolicy.seq ∧
    run_with_policy { threshold := 4, executionPolicy := "par_unseq" } 9 =
      ExecPolicy.par_unseq ∧
    run_with_policy { threshold := 4 } 9 = ExecPolicy.par :=
  ⟨(C5_policy_threshold _ 3).1 (by decide),
   (C5_policy_threshold _ 9).2.2.1 (by decide) rfl,
   (C5_policy_threshold _ 9).2.2.2 (by decide) (by decide) (by decide)⟩

/-- C8: CopyN clamps the requested count to the input length before
copying and returns exactly the first min(count, length) elements; in
particular a request beyond the input length succeeds and returns the
whole input. -/
theorem C8_copyN_clamps (input : List Int) (c : Nat) :
    CopyN input c = input.take (min c input.length) ∧
    (CopyN input c).length = min c input.length := by
  have h1 : CopyN input c = input.take (min c input.length) := by
    unfold CopyN hpx_copy_n
    by_cases h : c > input.length
    · rw [if_pos h, Nat.min_eq_right (Nat.le_of_lt h)]
    · rw [if_neg h, Nat.min_eq_left (Nat.le_of_not_lt h)]
  refine ⟨h1, ?_⟩
  rw [h1, List.length_take]
  omega

/-- C10: equal returns true exactly when the two arrays have the same
length and are elementwise equal (i.e. are equal as sequences); for
arrays of different lengths it returns false rather than comparing a
common prefix or raising an error. -/
theorem C10_equal_iff (v1 v2 : List Int) :
    (hpx_equal v1 v2 = true ↔ v1 = v2) ∧
    (v1.length ≠ v2.length → hpx_equal v1 v2 = false) := by
  constructor
  · unfold hpx_equal
    by_cases h : v1.length = v2.length
    · rw [if_pos h]
      exact zipAllEqIff v1 v2 h
    · rw [if_neg h]
      exact ⟨fun hf => absurd hf (by simp),
             fun he => absurd (by rw [he]) h⟩
  · intro h
    unfold hpx_equal
    rw [if_neg h]

/-- Witness for C10 at concrete arrays of different lengths. -/
theorem C10_equal_iff_witness :
    hpx_equal [1, 2] [1, 2] = true ∧ hpx_equal [1] [1, 2] = false :=
  ⟨(C10_equal_iff [1, 2] [1, 2]).1.mpr rfl,
   (C10_equal_iff [1] [1, 2]).2 (by decide)⟩

/-- C4: a batch callback invocation whose host-side function returns a
response of the wrong length or wrong element kind fails with the
ShapeMismatch error, for both the predicate-mask and the key-array batch
calls; the response is never truncated or padded, and on success the
response length equals the request length. -/
theorem C4_batch_shape (ret : JSReturn) (n : Nat) :
    (∀ t, ret = JSReturn.typedArr t →
      t.data.length ≠ n ∨ t.kind ≠ NapiKind.uint8 →
      GetPredicateMaskBatchUsingTSFN ret n =
        Except.error BatchError.shapeMismatch) ∧
    (∀ t, ret = JSReturn.typedArr t →
      t.data.length ≠ n ∨ t.kind ≠ NapiKind.int32 →
      GetKeyArrayBatchUsingTSFN ret n =
        Except.error BatchError.shapeMismatch) ∧
    (∀ m, GetPredicateMaskBatchUsingTSFN ret n = Except.ok m →
      m.length = n) ∧
    (∀ k, GetKeyArrayBatchUsingTSFN ret n = Except.ok k →
      k.length = n) := by
  refine ⟨?_, ?_, ?_, ?_⟩
  · rintro t rfl h
    show (if t.kind ≠ NapiKind.uint8 ∨ t.data.length ≠ n then
        Except.error BatchError.shapeMismatch else Except.ok t.data) =
      Except.error BatchError.shapeMismatch
    rw [if_pos (h.elim Or.inr Or.inl)]
  · rintro t rfl h
    show (if t.kind ≠ NapiKind.int32 ∨ t.data.length ≠ n then
        Except.error BatchError.shapeMismatch else Except.ok t.data) =
      Except.error BatchError.shapeMismatch
    rw [if_pos (h.elim Or.inr Or.inl)]
  · intro m hm
    cases ret with
    | nonTypedArray => simp [GetPredicateMaskBatchUsingTSFN] at hm
    | typedArr t =>
      replace hm :
          (if t.kind ≠ NapiKind.uint8 ∨ t.data.length ≠ n then
            Except.error BatchError.shapeMismatch else Except.ok t.data) =
          Except.ok m := hm
      by_cases hc : t.kind ≠ NapiKind.uint8 ∨ t.data.length ≠ n
      · rw [if_pos hc] at hm
        simp at hm
      · rw [if_neg hc] at hm
        cases hm
        push_neg at hc
        exact hc.2
  · intro k hk
    cases ret with
    | nonTypedArray => simp [GetKeyArrayBatchUsingTSFN] at hk
    | typedArr t =>
      replace hk :
          (if t.kind ≠ NapiKind.int32 ∨ t.data.length ≠ n then
            Except.error BatchError.shapeMismatch else Except.ok t.data) =
          Except.ok k := hk
      by_cases hc : t.kind ≠ NapiKind.int32 ∨ t.data.length ≠ n
      · rw [if_pos hc] at hk
        simp at hk
      · rw [if_neg hc] at hk
        cases hk
        push_neg at hc
        exact hc.2

/-- Witness for C4 at concrete responses: a one-element mask for a
two-element request fails, a wrong-kind key array fails, and a correct
mask comes back with the request length. -/
theorem C4_batch_shape_witness :
    GetPredicateMaskBatchUsingTSFN
      (JSReturn.typedArr ⟨NapiKind.uint8, [1]⟩) 2 =
      Except.error BatchError.shapeMismatch ∧
    GetKeyArrayBatchUsingTSFN
      (JSReturn.typedArr ⟨NapiKind.uint8, [1, 1]⟩) 2 =
      Except.error BatchError.shapeMismatch ∧
    ([1, 0] : List Int).length = 2 :=
  ⟨(C4_batch_shape _ 2).1 _ rfl (Or.inl (by decide)),
   (C4_batch_shape _ 2).2.1 _ rfl (Or.inr (by decide)),
   (C4_batch_shape (JSReturn.typedArr ⟨NapiKind.uint8, [1, 0]⟩) 2).2.2.1
     [1, 0] rfl⟩

/-- Helper for C6: running the count-if fold over an all-true mask from
any cursor position that stays in bounds counts every element. -/
theorem countIf_foldl_all_true (mask : List Int)
    (hall : ∀ b ∈ mask, b = 1) :
    ∀ (input : List Int) (cnt cur : Nat),
      cur + input.length ≤ mask.length →
      input.foldl (countIfStep mask) (cnt, cur) =
        (cnt + input.length, cur + input.length) := by
  intro input
  induction input with
  | nil => intro cnt cur _; simp
  | cons a t ih =>
    intro cnt cur hle
    have hcur : cur < mask.length := by
      simp only [List.length_cons] at hle
      omega
    have h1 : mask.getD cur 0 = 1 := by
      rw [List.getD_eq_getElem mask 0 hcur]
      exact hall _ (List.getElem_mem hcur)
    have hstep : countIfStep mask (cnt, cur) a = (cnt + 1, cur + 1) := by
      simp only [countIfStep, maskPredicate, h1]
      rfl
    rw [List.foldl_cons, hstep,
      ih (cnt + 1) (cur + 1) (by simp only [List.length_cons] at hle; omega)]
    rw [Prod.mk.injEq]
    constructor <;> simp <;> omega

/-- Helper for C6: running the copy-if fold over an all-true mask from any
cursor position that stays in bounds keeps every element in order. -/
theorem copyIf_foldl_all_true (mask : List Int)
    (hall : ∀ b ∈ mask, b = 1) :
    ∀ (input out : List Int) (cur : Nat),
      cur + input.length ≤ mask.length →
      input.foldl (copyIfStep mask) (out, cur) =
        (out ++ input, cur + input.length) := by
  intro input
  induction input with
  | nil => intro out cur _; simp
  | cons a t ih =>
    intro out cur hle
    have hcur : cur < mask.length := by
      simp only [List.length_cons] at hle
      omega
    have h1 : mask.getD cur 0 = 1 := by
      rw [List.getD_eq_getElem mask 0 hcur]
      exact hall _ (List.getElem_mem hcur)
    have hstep : copyIfStep mask (out, cur) a = (out ++ [a], cur + 1) := by
      simp only [copyIfStep, maskPredicate, h1]
      rfl
    rw [List.foldl_cons, hstep,
      ih (out ++ [a]) (cur + 1)
        (by simp only [List.length_cons] at hle; omega)]
    rw [Prod.mk.injEq]
    constructor
    · simp
    · simp; omega

/-- C6: with a host predicate whose mask marks every element true, countIf
returns the input length (the count of all elements) and copyIf returns a
copy of the entire input, i.e. they behave like count-everything and copy
with no predicate. -/
theorem C6_all_true_mask (input : List Int) (mask : List Int)
    (hlen : mask.length = input.length) (hall : ∀ b ∈ mask, b = 1) :
    hpx_count_if input mask = input.length ∧
    hpx_copy_if input mask = hpx_copy input := by
  constructor
  · unfold hpx_count_if
    rw [countIf_foldl_all_true mask hall input 0 0 (by omega)]
    simp
  · unfold hpx_copy_if
    rw [copyIf_foldl_all_true mask hall input [] 0 (by omega)]
    simp [hpx_copy]

/-- Witness for C6 at a concrete input and all-true mask. -/
theorem C6_all_true_mask_witness :
    hpx_count_if [4, 7] [1, 1] = 2 ∧
    hpx_copy_if [4, 7] [1, 1] = hpx_copy [4, 7] := by
  have h := C6_all_true_mask [4, 7] [1, 1] (by decide) (by decide)
  simpa using h

/-- C1 (evaluation of the code at the failing states): a second FinalizeHPX
call never hands back the same in-flight future.  The
finalization-already-in-progress branch (hpx_manager.cpp lines 93-96)
throws std::future_error whenever it is reached, because the first call
already retrieved the promise's future at line 109; and since mutex_ is
held across the whole finalize wait, a concurrent second caller runs only
after the first completed and observes NotRunning (-1) while the first
observed 0.  The joined-exactly-once part of the claim does hold:
joinCount stays at 1. -/
theorem C1_finalize_coalescing_broken :
    (FinalizeHPX inFlightFinalizeManager).1 = FinalizeResult.futureError ∧
    (FinalizeHPX runningManager).1 = FinalizeResult.ok 0 ∧
    (FinalizeHPX (FinalizeHPX runningManager).2).1 =
      FinalizeResult.notRunning ∧
    (FinalizeHPX (FinalizeHPX runningManager).2).2.joinCount = 1 := by
  decide

/-- C3 counterexample: init issued in the Starting state (engine thread
spawned but running_ not yet set) is not rejected with AlreadyRunning: the
running_ guard passes, the pending init promise is overwritten - breaking
the first call's future - and the assignment to the still-joinable
hpx_thread_ reaches std::terminate. -/
theorem C3_init_in_starting_not_rejected :
    (InitHPX startingManager).1 ≠ InitResult.alreadyRunning ∧
    (InitHPX startingManager).1 = InitResult.terminatedCall ∧
    (InitHPX startingManager).2.brokenInitFutures = 1 := by
  decide

/-- C3 amended: only when the runtime is Running (running_ flag set) does
a second init fail immediately with AlreadyRunning; it then spawns no
second engine thread and leaves the whole manager state - the first
call's future included - untouched. -/
theorem C3_init_rejected_when_running (s : ManagerState)
    (h : s.running = true) :
    InitHPX s = (InitResult.alreadyRunning, s) := by
  simp [InitHPX, h]

/-- Witness for the amended C3 at the concrete Running state. -/
theorem C3_init_rejected_when_running_witness :
    runningManager.running = true ∧
    InitHPX runningManager = (InitResult.alreadyRunning, runningManager) :=
  ⟨by decide, C3_init_rejected_when_running runningManager (by decide)⟩

/-- C2 counterexample: the finalize path never performs the
wait-for-release-completion action, and the finalize promise is resolved
as the last host-side action, so the completion of release_all is not
awaited before the finalize future resolves. -/
theorem C2_completion_not_awaited :
    HostAction.waitReleaseCompletion ∉ finalizeHostTrace ∧
    finalizeHostTrace.getLast? = some HostAction.resolvePromise := by
  decide

/-- C2 amended: during finalize the registry release is invoked after the
engine thread is joined (callManagerFinalize precedes callReleaseAll), and
the spawned release thread releases every handle present at invocation
exactly once before signalling completion; but the finalize future
resolves without awaiting that completion signal
(WaitForReleaseCompletion is never called). -/
theorem C2_release_after_join_no_await (handles : List Nat)
    (nd : handles.Nodup) (h : Nat) (mem : h ∈ handles) :
    HostAction.waitReleaseCompletion ∉ finalizeHostTrace ∧
    finalizeHostTrace.indexOf HostAction.callManagerFinalize <
      finalizeHostTrace.indexOf HostAction.callReleaseAll ∧
    (releaseThreadTrace handles).getLast? =
      some HostAction.signalReleaseComplete ∧
    HostAction.releaseHandle h ∈ (releaseThreadTrace handles).dropLast ∧
    (releaseThreadTrace handles).count (HostAction.releaseHandle h) = 1 := by
  refine ⟨by decide, by decide, ?_, ?_, ?_⟩
  · unfold releaseThreadTrace
    exact List.getLast?_concat _
  · unfold releaseThreadTrace
    rw [List.dropLast_concat]
    exact List.mem_map_of_mem _ mem
  · unfold releaseThreadTrace
    rw [List.count_append]
    have hinj : Function.Injective HostAction.releaseHandle := by
      intro a b hab
      cases hab
      rfl
    rw [List.count_map_of_injective _ _ hinj]
    rw [List.count_eq_one_of_mem nd mem]
    simp

/-- Witness for the amended C2 at a concrete one-handle registry. -/
theorem C2_release_after_join_no_await_witness :
    HostAction.waitReleaseCompletion ∉ finalizeHostTrace ∧
    (releaseThreadTrace [7]).getLast? =
      some HostAction.signalReleaseComplete ∧
    HostAction.releaseHandle 7 ∈ (releaseThreadTrace [7]).dropLast ∧
    (releaseThreadTrace [7]).count (HostAction.releaseHandle 7) = 1 := by
  have h := C2_release_after_join_no_await [7] (by decide) 7 (by decide)
  exact ⟨h.1, h.2.2.1, h.2.2.2.1, h.2.2.2.2⟩

/-- C9: for an out-of-range middle (middle > length), hpx_partial_sort
rejects with the middle-index-out-of-bounds error while
hpx_partial_sort_comp clamps middle to the length and succeeds, returning
the same result as for middle = length. -/
theorem C9_partialSort_oob (src : List Int) (middle : Nat)
    (comp : Int → Int → Bool) (h : middle > src.length) :
    hpxPartialSort src middle =
      Except.error WrapperError.middleOutOfBounds ∧
    hpxPartialSortComp src middle comp =
      hpxPartialSortComp src src.length comp ∧
    ∃ out, hpxPartialSortComp src middle comp = Except.ok out := by
  refine ⟨?_, ?_, ⟨_, rfl⟩⟩
  · unfold hpxPartialSort
    rw [if_pos h]
  · unfold hpxPartialSortComp
    rw [if_pos h, if_neg (lt_irrefl _)]

/-- Witness for C9 at a concrete array and out-of-range middle. -/
theorem C9_partialSort_oob_witness :
    5 > ([3, 1, 2] : List Int).length ∧
    hpxPartialSort [3, 1, 2] 5 =
      Except.error WrapperError.middleOutOfBounds ∧
    ∃ out, hpxPartialSortComp [3, 1, 2] 5 (fun a b => decide (a ≤ b)) =
      Except.ok out := by
  have h := C9_partialSort_oob [3, 1, 2] 5 (fun a b => decide (a ≤ b))
    (by decide)
  exact ⟨by decide, h.1, h.2.2⟩
